import Mathlib

/-!
Shallow embedding of the husky `lib/ml` training core
(`model.hpp`, `sgd.hpp`, `regression.hpp`, `svm.hpp`, and the test loop of
`examples/svm_fgd.cpp`).

Doubles are modelled as rationals (`ℚ`); dense parameter vectors and dense
feature vectors are modelled as `List ℚ` indexed from `0`.  The husky
`ParameterBucket` operations used by this code are `get_all_param()`
(whole-vector snapshot), `param_at(i)` (read, `0` out of range in the dense
list model), `update(i, delta)` (add `delta` at index `i`) and
`get_num_param()` (length); they are modelled by `List.getD`, `vupdate` and
`List.length`.  Iterating the feature/value pairs of a vector
(`begin_feaval() .. end_feaval()`) is modelled by iterating `enumFeaval 0` of
the dense list: entries holding `0` contribute a delta of `0`, exactly as a
dense husky vector does.
-/

namespace Husky

/-- A labeled data point (`LabeledPointHObj`): feature vector `x`, label `y`. -/
structure LabeledPoint where
  x : List ℚ
  y : ℚ
deriving DecidableEq, Repr

/-- A parameter vector (dense, index `0 ..` ; the model's bias, when present,
lives at the last index as in `SVM`). -/
abbrev Params := List ℚ

/-- The type of the pluggable gradient closure
(`std::function<VecT(ObjT&, Vector<FeatureT, false>&)>`). -/
abbrev GradFunc := LabeledPoint → Params → Params

/-- Models `param_list.update(i, delta)` / `current_vec[i] += delta`: add `delta` at
index `i`.  Out-of-range indices leave the vector unchanged
(`List.set` is the identity there). -/
def vupdate (v : Params) (i : ℕ) (delta : ℚ) : Params :=
  v.set i (v.getD i 0 + delta)

/-- The feature/value pairs of a dense vector, in index order starting at
`i`: the dense-vector form of the `begin_feaval() .. end_feaval()` iteration
(`enumFeaval i v` lists `(i, v₀), (i+1, v₁), …`). -/
def enumFeaval : ℕ → List ℚ → List (ℕ × ℚ)
  | _, [] => []
  | i, v :: rest => (i, v) :: enumFeaval (i + 1) rest

/-- The body of the per-example feature/value loop of `SGD::update_param`
(sgd.hpp lines 67-72): for every component `(fea, val)` of the gradient,
`delta = val * learning_rate`; `current_vec[fea] += delta`; the shared store
receives `delta * num_local_samples / num_global_samples`.
`scale` stands for `num_local_samples / num_global_samples`.
The state is the pair `(current_vec, param_list)`. -/
def gradStep (lr scale : ℚ) (grad : Params) (st : Params × Params) : Params × Params :=
  (enumFeaval 0 grad).foldl
    (fun p iv =>
      let delta := iv.2 * lr
      (vupdate p.1 iv.1 delta, vupdate p.2 iv.1 (delta * scale)))
    st

/-- One iteration of the `list_execute` closure of `SGD::update_param`
(sgd.hpp lines 65-73): compute the gradient of the example against
`current_vec`, then run the feature/value loop. -/
def exampleStep (lr scale : ℚ) (gradient_func_ : GradFunc)
    (st : Params × Params) (this_obj : LabeledPoint) : Params × Params :=
  gradStep lr scale (gradient_func_ this_obj st.1) st

/-- Embeds `SGD::l2_regularize` (sgd.hpp lines 83-88): for every index `i`,
`param_list.update(i, - param_at(i) * learning_rate * lambda)`. -/
def l2_regularize (lr lambda_ : ℚ) (param_list : Params) : Params :=
  (List.range param_list.length).foldl
    (fun pl i => vupdate pl i (-pl.getD i 0 * lr * lambda_)) param_list

/-- The regularization `switch` of `SGD::update_param` (sgd.hpp lines 54-63):
norm `1` is a `TODO` in the source and falls through without touching the
store; norm `2` applies `l2_regularize`; other norms fall off the `switch`. -/
def regularize (flag : Bool) (norm : ℤ) (lr lambda_ : ℚ) (param_list : Params) : Params :=
  if flag then
    if norm = 1 then param_list
    else if norm = 2 then l2_regularize lr lambda_ param_list
    else param_list
  else param_list

/-- The mutable configuration of an `SGD` optimizer: learning rate and the
regularization fields set by `SGD::set_regularization`. -/
structure SGDConfig where
  learning_rate_ : ℚ
  regularization_flag_ : Bool := false
  regularization_norm_ : ℤ := 0
  lambda_ : ℚ := 0

/-- Embeds `SGD::update_param(data, param_list, num_global_samples)`
(sgd.hpp lines 45-74) for one worker: take the local copy `current_vec` of the
shared store, apply the regularization switch to the shared store, then for
every local example run `exampleStep`.  Returns the resulting shared store. -/
def update_param (cfg : SGDConfig) (gradient_func_ : GradFunc)
    (data : List LabeledPoint) (param_list : Params)
    (num_global_samples : ℕ) : Params :=
  let num_local_samples := data.length
  let current_vec := param_list
  let param_list1 := regularize cfg.regularization_flag_ cfg.regularization_norm_
      cfg.learning_rate_ cfg.lambda_ param_list
  let scale := (num_local_samples : ℚ) / (num_global_samples : ℚ)
  (data.foldl (exampleStep cfg.learning_rate_ scale gradient_func_)
    (current_vec, param_list1)).2

/-- Embeds `SGD::update_param`, instrumented: the same computation, but also
returning (in order) the gradient vectors that `gradient_func_` produced
during the round.  The lemma `update_param_trace_fst` proves the first
component agrees with `update_param`. -/
def update_param_trace (cfg : SGDConfig) (gradient_func_ : GradFunc)
    (data : List LabeledPoint) (param_list : Params)
    (num_global_samples : ℕ) : Params × List Params :=
  let num_local_samples := data.length
  let current_vec := param_list
  let param_list1 := regularize cfg.regularization_flag_ cfg.regularization_norm_
      cfg.learning_rate_ cfg.lambda_ param_list
  let scale := (num_local_samples : ℚ) / (num_global_samples : ℚ)
  let r := data.foldl
    (fun (st : (Params × Params) × List Params) this_obj =>
      let grad := gradient_func_ this_obj st.1.1
      (gradStep cfg.learning_rate_ scale grad st.1, st.2 ++ [grad]))
    ((current_vec, param_list1), [])
  (r.1.2, r.2)

/-- The evolution of `current_vec` alone under the feature/value loop: the
first component of `gradStep` does not depend on `scale` or on the shared
store. -/
def curStep (lr : ℚ) (grad cv : Params) : Params :=
  (enumFeaval 0 grad).foldl (fun c iv => vupdate c iv.1 (iv.2 * lr)) cv

/-- Computes `current_vec` after a sequential pass over `data` starting from `cv`:
each example's gradient is taken against the current working copy, which then
absorbs the full (unscaled) learning-rate step. -/
def cvAfter (lr : ℚ) (gradient_func_ : GradFunc)
    (data : List LabeledPoint) (cv : Params) : Params :=
  data.foldl (fun c this_obj => curStep lr (gradient_func_ this_obj c) c) cv

/-- Elementwise sum of two vectors of the same length. -/
def vadd (a b : Params) : Params := List.zipWith (· + ·) a b

/-- Elementwise difference of two vectors of the same length. -/
def vsub (a b : Params) : Params := List.zipWith (· - ·) a b

/-- A vector scaled by a rational. -/
def smulVec (c : ℚ) (v : Params) : Params := v.map (c * ·)

/-- One synchronous round executed by `k` workers over the partitions `parts`
of the dataset, every worker running `SGD::update_param` (without
regularization, as `Regression::train` constructs its optimizer) against the
same round-start snapshot `init` of the shared store.  The shared store is
mutated only through commutative `update` add-deltas, and a worker's deltas
depend only on its private `current_vec`, never on the evolving shared value;
hence the concurrent round equals `init` plus the sum of the per-worker
delta vectors, which is what this definition computes. -/
def multi_worker_round (lr : ℚ) (gradient_func_ : GradFunc)
    (parts : List (List LabeledPoint)) (init : Params)
    (num_global_samples : ℕ) : Params :=
  parts.foldl
    (fun acc part =>
      vadd acc (vsub (update_param ⟨lr, false, 0, 0⟩ gradient_func_ part init
        num_global_samples) init))
    init

/-- Modelled from the spec: `Vector::dot_with_intcpt` lives in husky's
`lib/vector.hpp`, which is not part of this source tree.  The spec defines the
margin as `y·(w·x + b)` with the bias `b` stored as the last parameter, and
`svm.hpp`'s own `error_func_` spells the same product out as
`Σ param_at(fea)·val + param_at(num_param-1)`; `dot_with_intcpt` is modelled
accordingly as `w·x` plus the last entry of `param`. -/
def dot_with_intcpt (param : Params) (x : List ℚ) : ℚ :=
  (List.zipWith (· * ·) param x).sum + param.getD (param.length - 1) 0

/-- Modelled from the spec: `Vector::resize` (also from husky's
`lib/vector.hpp`, not in this source tree) resizes a dense vector, padding
fresh entries with `0`. -/
def resizeVec (v : List ℚ) (n : ℕ) : List ℚ :=
  (v ++ List.replicate (n - v.length) 0).take n

/-- The SVM gradient closure installed by the `SVM` constructor
(svm.hpp lines 47-60): `prod = dot_with_intcpt(param, X) * y`; if `prod < 1`
return `X * y` resized to `num_param` with the last entry set to `y`,
else return the zero-dimensional vector `Vector(0)` (no feature/value
entries, hence no update). -/
def svm_gradient_func_ (this_obj : LabeledPoint) (param : Params) : Params :=
  let y := this_obj.y
  let X := this_obj.x
  let prod := dot_with_intcpt param X * y
  if prod < 1 then
    let X1 := X.map (· * y)
    let num_param := param.length
    (resizeVec X1 num_param).set (num_param - 1) y
  else []

/-- The SVM error closure installed by the `SVM` constructor
(svm.hpp lines 62-73): `indicator = (Σ param_at(fea)·val + bias) * y`;
returns `1` if `indicator ≤ 0`, else `0`. -/
def svm_error_func_ (this_obj : LabeledPoint) (param_list : Params) : ℚ :=
  let y := this_obj.y
  let X := this_obj.x
  let indicator :=
    ((enumFeaval 0 X).foldl (fun acc fv => acc + param_list.getD fv.1 0 * fv.2) 0
      + param_list.getD (param_list.length - 1) 0) * y
  if indicator ≤ 0 then 1 else 0

/-- The test-set misclassification indicator of the `svm_fgd` example
(svm_fgd.cpp lines 164-176): `indicator = (Σ bweight[fea]·val +
bweight[num_features]) * y`; the error aggregator is incremented iff
`indicator < 0` (strict). -/
def svm_fgd_test_error (this_obj : LabeledPoint) (bweight : Params)
    (num_features : ℕ) : ℚ :=
  let y := this_obj.y
  let X := this_obj.x
  let indicator :=
    ((enumFeaval 0 X).foldl (fun acc fv => acc + bweight.getD fv.1 0 * fv.2) 0
      + bweight.getD num_features 0) * y
  if indicator < 0 then 1 else 0

/-- The pluggable-closure state of a `Model` (model.hpp lines 32-102): the
three `std::function` members (`nullptr` modelled as `none`), the parameter
store and the `trained_` flag. -/
structure ModelS where
  gradient_func_ : Option GradFunc := none
  error_func_ : Option (LabeledPoint → Params → ℚ) := none
  predict_func_ : Option (LabeledPoint → Params → ℚ) := none
  param_list_ : Params := []
  trained_ : Bool := false

/-- Embeds `Model::set_num_param` (model.hpp lines 51-55): `if (_num_param > 0)`
initialize the store with `_num_param` zeroes; otherwise the call returns
without doing anything — there is no `else` branch and no assertion. -/
def set_num_param (m : ModelS) (_num_param : ℤ) : ModelS :=
  if _num_param > 0 then { m with param_list_ := List.replicate _num_param.toNat 0 }
  else m

/-- Embeds `Model::predict` (model.hpp lines 66-72): assert the predict closure is
set (`ASSERT_MSG`, modelled as `Except.error` with the assertion's message),
then overwrite every local record's label with the closure's output. -/
def predict (m : ModelS) (data : List LabeledPoint) :
    Except String (List LabeledPoint) :=
  match m.predict_func_ with
  | none => .error "Predict function is not specified."
  | some f => .ok (data.map fun this_obj => { this_obj with y := f this_obj m.param_list_ })

/-- Embeds `Model::avg_error` (model.hpp lines 76-88): the `list_execute`
closure invokes `error_func_` once per local example, accumulating the error
sum and the sample count (the two aggregators), and afterwards the global
error is divided by the global sample count.  There is no assertion on
`error_func_` anywhere in `avg_error`: the closure is only ever invoked
inside the loop body, so an empty `std::function` throws
`std::bad_function_call` (modelled as that error value) at its first
invocation — and with no local examples it is never invoked at all, the loop
contributing `0` and the unguarded division then running with a zero sample
count. -/
def avg_error (m : ModelS) (data : List LabeledPoint) : Except String ℚ :=
  let global_error : Except String ℚ := data.foldl
    (fun (acc : Except String ℚ) this_obj => acc.bind fun a =>
      match m.error_func_ with
      | none => .error "bad_function_call"
      | some f => .ok (a + f this_obj m.param_list_))
    (.ok 0)
  let num_samples := data.length
  global_error.map fun ge => ge / (num_samples : ℚ)

/-- The `ASSERT_MSG(this->learning_rate_ != 0, ...)` at the head of
`SGD::update_param` (sgd.hpp line 47), wrapped around the pure round; the
gradient-function assertion on line 48 cannot fire here because
`Regression::train` only reaches this point with a closure in hand. -/
def update_param_checked (lr : ℚ) (gradient_func_ : GradFunc)
    (data : List LabeledPoint) (param_list : Params)
    (num_global_samples : ℕ) : Except String Params :=
  if lr = 0 then .error "Learning rate is set to 0."
  else .ok (update_param ⟨lr, false, 0, 0⟩ gradient_func_ data param_list
    num_global_samples)

/-- Embeds `Regression::train` (regression.hpp lines 49-91): the three `ASSERT_MSG`
checks (parameter count positive, gradient closure set, error closure set),
the global sample count (the aggregator over the whole dataset), then `iters`
rounds of `gd.update_param` with a freshly constructed optimizer (no
regularization); finally `trained_` is set. -/
def Regression.train (m : ModelS) (data : List LabeledPoint) (iters : ℕ)
    (learning_rate : ℚ) : Except String ModelS :=
  if ¬ 0 < m.param_list_.length then .error "The number of parameters is 0."
  else
    match m.gradient_func_ with
    | none => .error "Gradient function is not specified."
    | some gradF =>
      match m.error_func_ with
      | none => .error "Error function is not specified."
      | some _ =>
        let num_samples := data.length
        let rounds : Except String Params := (List.range iters).foldl
          (fun pl _ => pl.bind fun pl =>
            update_param_checked learning_rate gradF data pl num_samples)
          (.ok m.param_list_)
        rounds.map fun pl => { m with param_list_ := pl, trained_ := true }

/-- The round loop of `Regression::train_test` (regression.hpp lines
119-141), recursing on the number of rounds still to run (`fuel`, initially
`iters`; the source's `round` index satisfies `round + fuel = iters`).  Each
round applies one parameter update (`gd.update_param`, abstracted as the
closure `update` over the training data and sample count fixed at entry),
computes `currentError = avg_error(Test)` (abstracted as `avgErr` of the
fresh parameters), breaks when `currentError == 0.0 || (round != 0 &&
currentError > pastError)`, and otherwise records `pastError = currentError`
and continues.  Returns the final parameters and the number of update rounds
actually applied. -/
def train_test_go (update : Params → Params) (avgErr : Params → ℚ) :
    ℕ → ℕ → ℚ → Params → Params × ℕ
  | 0, round, _, params => (params, round)
  | fuel + 1, round, pastError, params =>
    let params1 := update params
    let currentError := avgErr params1
    if currentError = 0 ∨ (round ≠ 0 ∧ currentError > pastError)
    then (params1, round + 1)
    else train_test_go update avgErr fuel (round + 1) currentError params1

/-- Embeds `Regression::train_test(data, Test, iters, learning_rate)` with the
per-round update and the held-out evaluation abstracted as closures (`update
= gd.update_param(data, ·, num_samples)`, `avgErr = avg_error(Test)` under a
fixed parameter argument): the loop starts at `round = 0` with `pastError =
0.0`. -/
def train_test (iters : ℕ) (update : Params → Params) (avgErr : Params → ℚ)
    (params : Params) : Params × ℕ :=
  train_test_go update avgErr iters 0 0 params

/-- The held-out error sequence of a training run: `errAt r` is the average
held-out error observed after `r + 1` rounds of updates. -/
def errAt (update : Params → Params) (avgErr : Params → ℚ) (params : Params)
    (r : ℕ) : ℚ :=
  avgErr (update^[r + 1] params)

/-- The early-stopping condition of `train_test` at round `r`, expressed over
the held-out error sequence: the error is exactly zero, or (for a round after
round `0`) it strictly exceeds the previous round's error. -/
def stopAt (update : Params → Params) (avgErr : Params → ℚ) (params : Params)
    (r : ℕ) : Prop :=
  errAt update avgErr params r = 0 ∨
    (r ≠ 0 ∧ errAt update avgErr params r > errAt update avgErr params (r - 1))

instance (update : Params → Params) (avgErr : Params → ℚ) (params : Params)
    (r : ℕ) : Decidable (stopAt update avgErr params r) := by
  unfold stopAt; infer_instance

/-- The gradients produced during one worker's round, described recursively:
the head example's gradient is taken against the incoming working copy, and
the tail's gradients against the copy after the head's full learning-rate
step. -/
def roundGradients (lr : ℚ) (g : GradFunc) : List LabeledPoint → Params → List Params
  | [], _ => []
  | this_obj :: rest, cv =>
    g this_obj cv :: roundGradients lr g rest (curStep lr (g this_obj cv) cv)

/-! ### Helper lemmas -/

lemma length_vupdate (v : Params) (i : ℕ) (d : ℚ) :
    (vupdate v i d).length = v.length := by
  simp [vupdate]

lemma getD_vupdate (v : Params) (i : ℕ) (d : ℚ) (j : ℕ) :
    (vupdate v i d).getD j 0 =
      if i = j ∧ j < v.length then v.getD j 0 + d else v.getD j 0 := by
  simp only [vupdate, List.getD_eq_getElem?_getD, List.getElem?_set]
  by_cases hij : i = j
  · subst hij
    by_cases hlt : i < v.length
    · simp [hlt]
    · simp [hlt, List.getElem?_eq_none (Nat.le_of_not_lt hlt)]
  · simp [hij]

lemma cons_getElem_one (a b : ℚ) (l : List ℚ) : (a :: b :: l)[(1 : ℕ)] = b := rfl

lemma cons_getElem_two (a b c : ℚ) (l : List ℚ) :
    (a :: b :: c :: l)[(2 : ℕ)] = c := rfl

lemma gradStep_fst (lr scale : ℚ) (grad : Params) (st : Params × Params) :
    (gradStep lr scale grad st).1 = curStep lr grad st.1 := by
  unfold gradStep curStep
  generalize enumFeaval 0 grad = l
  induction l generalizing st with
  | nil => rfl
  | cons iv rest ih =>
    simp only [List.foldl_cons]
    exact ih _

lemma foldl_exampleStep_fst (lr scale : ℚ) (g : GradFunc) :
    ∀ (data : List LabeledPoint) (st : Params × Params),
      (data.foldl (exampleStep lr scale g) st).1 = cvAfter lr g data st.1
  | [], _ => rfl
  | this_obj :: rest, st => by
    simp only [List.foldl_cons, cvAfter, exampleStep]
    have h := foldl_exampleStep_fst lr scale g rest (gradStep lr scale (g this_obj st.1) st)
    rw [h, gradStep_fst]
    rfl

lemma trace_foldl_fst (lr scale : ℚ) (g : GradFunc) :
    ∀ (d : List LabeledPoint) (st : Params × Params) (gs : List Params),
      (d.foldl
        (fun (st : (Params × Params) × List Params) this_obj =>
          (gradStep lr scale (g this_obj st.1.1) st.1, st.2 ++ [g this_obj st.1.1]))
        (st, gs)).1 = d.foldl (exampleStep lr scale g) st
  | [], _, _ => rfl
  | this_obj :: rest, st, gs => by
    simp only [List.foldl_cons]
    exact trace_foldl_fst lr scale g rest _ _

lemma trace_foldl_snd (lr scale : ℚ) (g : GradFunc) :
    ∀ (d : List LabeledPoint) (st : Params × Params) (gs : List Params),
      (d.foldl
        (fun (st : (Params × Params) × List Params) this_obj =>
          (gradStep lr scale (g this_obj st.1.1) st.1, st.2 ++ [g this_obj st.1.1]))
        (st, gs)).2 = gs ++ roundGradients lr g d st.1
  | [], _, gs => by simp [roundGradients]
  | this_obj :: rest, st, gs => by
    simp only [List.foldl_cons, roundGradients]
    rw [trace_foldl_snd lr scale g rest _ _]
    simp [gradStep_fst]

lemma update_param_trace_fst (cfg : SGDConfig) (g : GradFunc)
    (data : List LabeledPoint) (pl : Params) (n : ℕ) :
    (update_param_trace cfg g data pl n).1 = update_param cfg g data pl n := by
  simp only [update_param_trace, update_param]
  rw [trace_foldl_fst]

lemma update_param_trace_snd (cfg : SGDConfig) (g : GradFunc)
    (data : List LabeledPoint) (pl : Params) (n : ℕ) :
    (update_param_trace cfg g data pl n).2 =
      roundGradients cfg.learning_rate_ g data pl := by
  simp only [update_param_trace]
  rw [trace_foldl_snd]
  simp

lemma roundGradients_getD (lr : ℚ) (g : GradFunc) :
    ∀ (data : List LabeledPoint) (cv : Params) (j : ℕ), j < data.length →
      (roundGradients lr g data cv).getD j [] =
        g (data.getD j ⟨[], 0⟩) (cvAfter lr g (data.take j) cv)
  | [], _, j, hj => absurd hj (by simp)
  | this_obj :: rest, cv, 0, _ => by simp [roundGradients, cvAfter]
  | this_obj :: rest, cv, j + 1, hj => by
    simp only [roundGradients, List.getD_cons_succ, List.getD_cons_succ,
      List.take_succ_cons]
    rw [roundGradients_getD lr g rest _ j (by simpa using hj)]
    rfl

lemma length_curStep (lr : ℚ) (grad cv : Params) :
    (curStep lr grad cv).length = cv.length := by
  unfold curStep
  generalize enumFeaval 0 grad = l
  induction l generalizing cv with
  | nil => rfl
  | cons iv rest ih =>
    simp only [List.foldl_cons]
    rw [ih, length_vupdate]

lemma length_cvAfter (lr : ℚ) (g : GradFunc) :
    ∀ (data : List LabeledPoint) (cv : Params),
      (cvAfter lr g data cv).length = cv.length
  | [], _ => rfl
  | this_obj :: rest, cv => by
    simp only [cvAfter, List.foldl_cons]
    rw [show (rest.foldl (fun c this_obj => curStep lr (g this_obj c) c)
      (curStep lr (g this_obj cv) cv)) = cvAfter lr g rest
        (curStep lr (g this_obj cv) cv) from rfl]
    rw [length_cvAfter lr g rest, length_curStep]

lemma pairs_invariant (lr scale : ℚ) (init : Params) :
    ∀ (l : List (ℕ × ℚ)) (cur sh : Params),
      cur.length = init.length → sh.length = init.length →
      (∀ i, sh.getD i 0 = init.getD i 0 + scale * (cur.getD i 0 - init.getD i 0)) →
      (l.foldl (fun p iv =>
          let delta := iv.2 * lr
          (vupdate p.1 iv.1 delta, vupdate p.2 iv.1 (delta * scale)))
        (cur, sh)).1.length = init.length ∧
      (l.foldl (fun p iv =>
          let delta := iv.2 * lr
          (vupdate p.1 iv.1 delta, vupdate p.2 iv.1 (delta * scale)))
        (cur, sh)).2.length = init.length ∧
      ∀ i, (l.foldl (fun p iv =>
          let delta := iv.2 * lr
          (vupdate p.1 iv.1 delta, vupdate p.2 iv.1 (delta * scale)))
        (cur, sh)).2.getD i 0 =
          init.getD i 0 + scale *
            ((l.foldl (fun p iv =>
                let delta := iv.2 * lr
                (vupdate p.1 iv.1 delta, vupdate p.2 iv.1 (delta * scale)))
              (cur, sh)).1.getD i 0 - init.getD i 0)
  | [], cur, sh, h1, h2, h3 => ⟨h1, h2, h3⟩
  | iv :: rest, cur, sh, h1, h2, h3 => by
    simp only [List.foldl_cons]
    refine pairs_invariant lr scale init rest _ _ ?_ ?_ ?_
    · rw [length_vupdate]; exact h1
    · rw [length_vupdate]; exact h2
    · intro i
      rw [getD_vupdate, getD_vupdate, h1, h2]
      by_cases hc : iv.1 = i ∧ i < init.length
      · rw [if_pos hc, if_pos hc, h3 i]; ring
      · rw [if_neg hc, if_neg hc, h3 i]

lemma round_invariant (lr scale : ℚ) (g : GradFunc) (init : Params) :
    ∀ (data : List LabeledPoint) (cur sh : Params),
      cur.length = init.length → sh.length = init.length →
      (∀ i, sh.getD i 0 = init.getD i 0 + scale * (cur.getD i 0 - init.getD i 0)) →
      (data.foldl (exampleStep lr scale g) (cur, sh)).1.length = init.length ∧
      (data.foldl (exampleStep lr scale g) (cur, sh)).2.length = init.length ∧
      ∀ i, (data.foldl (exampleStep lr scale g) (cur, sh)).2.getD i 0 =
        init.getD i 0 + scale *
          ((data.foldl (exampleStep lr scale g) (cur, sh)).1.getD i 0 - init.getD i 0)
  | [], cur, sh, h1, h2, h3 => ⟨h1, h2, h3⟩
  | this_obj :: rest, cur, sh, h1, h2, h3 => by
    simp only [List.foldl_cons]
    have hk := pairs_invariant lr scale init (enumFeaval 0 (g this_obj cur)) cur sh h1 h2 h3
    have hgs : exampleStep lr scale g (cur, sh) this_obj =
        ((enumFeaval 0 (g this_obj cur)).foldl (fun p iv =>
          let delta := iv.2 * lr
          (vupdate p.1 iv.1 delta, vupdate p.2 iv.1 (delta * scale))) (cur, sh)) := rfl
    rcases hp : exampleStep lr scale g (cur, sh) this_obj with ⟨cur1, sh1⟩
    rw [hp] at hgs
    obtain ⟨k1, k2, k3⟩ := hk
    rw [← hgs] at k1 k2 k3
    exact round_invariant lr scale g init rest cur1 sh1 k1 k2 k3

lemma update_param_no_reg_props (lr : ℚ) (g : GradFunc)
    (data : List LabeledPoint) (pl : Params) (n : ℕ) :
    (update_param ⟨lr, false, 0, 0⟩ g data pl n).length = pl.length ∧
    ∀ i, (update_param ⟨lr, false, 0, 0⟩ g data pl n).getD i 0 =
      pl.getD i 0 + ((data.length : ℚ) / (n : ℚ)) *
        ((cvAfter lr g data pl).getD i 0 - pl.getD i 0) := by
  have hreg : regularize false 0 lr 0 pl = pl := rfl
  have hinv := round_invariant lr ((data.length : ℚ) / (n : ℚ)) g pl data pl pl
    rfl rfl (by intro i; ring)
  obtain ⟨k1, k2, k3⟩ := hinv
  have hfst := foldl_exampleStep_fst lr ((data.length : ℚ) / (n : ℚ)) g data (pl, pl)
  constructor
  · simpa only [update_param, hreg] using k2
  · intro i
    have := k3 i
    rw [hfst] at this
    simpa only [update_param, hreg] using this

lemma length_vadd (a b : Params) : (vadd a b).length = min a.length b.length := by
  simp [vadd]

lemma length_vsub (a b : Params) : (vsub a b).length = min a.length b.length := by
  simp [vsub]

lemma length_smulVec (c : ℚ) (v : Params) : (smulVec c v).length = v.length := by
  simp [smulVec]

lemma update_param_no_reg_eq (lr : ℚ) (g : GradFunc)
    (data : List LabeledPoint) (pl : Params) (n : ℕ) :
    update_param ⟨lr, false, 0, 0⟩ g data pl n =
      vadd pl (smulVec ((data.length : ℚ) / (n : ℚ))
        (vsub (cvAfter lr g data pl) pl)) := by
  obtain ⟨hlen, hD⟩ := update_param_no_reg_props lr g data pl n
  have hcv : (cvAfter lr g data pl).length = pl.length := length_cvAfter lr g data pl
  apply List.ext_getElem
  · rw [hlen, length_vadd, length_smulVec, length_vsub, hcv]
    simp
  · intro i hi1 hi2
    rw [hlen] at hi1
    have hcvi : i < (cvAfter lr g data pl).length := by rw [hcv]; exact hi1
    have key := hD i
    rw [List.getD_eq_getElem _ _ (by rw [hlen]; exact hi1),
      List.getD_eq_getElem _ _ hi1, List.getD_eq_getElem _ _ hcvi] at key
    rw [key]
    simp only [vadd, vsub, smulVec, List.getElem_zipWith, List.getElem_map]

lemma update_param_single (lr : ℚ) (g : GradFunc)
    (data : List LabeledPoint) (pl : Params) :
    update_param ⟨lr, false, 0, 0⟩ g data pl data.length =
      cvAfter lr g data pl := by
  rcases eq_or_ne data.length 0 with h | h
  · have hnil : data = [] := List.length_eq_zero.mp h
    subst hnil
    simp [update_param, regularize, cvAfter]
  · rw [update_param_no_reg_eq, div_self (Nat.cast_ne_zero.mpr h)]
    have hcv : (cvAfter lr g data pl).length = pl.length := length_cvAfter lr g data pl
    apply List.ext_getElem
    · rw [length_vadd, length_smulVec, length_vsub, hcv]; simp
    · intro i hi1 hi2
      simp only [vadd, vsub, smulVec, List.getElem_zipWith, List.getElem_map]
      ring

lemma vsub_vadd_cancel (a x : Params) (h : x.length = a.length) :
    vsub (vadd a x) a = x := by
  apply List.ext_getElem
  · rw [length_vsub, length_vadd, h]; simp
  · intro i hi1 hi2
    simp only [vadd, vsub, List.getElem_zipWith]
    ring

lemma multi_worker_round_eq (lr : ℚ) (g : GradFunc)
    (parts : List (List LabeledPoint)) (init : Params) (n : ℕ) :
    multi_worker_round lr g parts init n =
      parts.foldl
        (fun acc part =>
          vadd acc (smulVec ((part.length : ℚ) / (n : ℚ))
            (vsub (cvAfter lr g part init) init)))
        init := by
  unfold multi_worker_round
  have hstep : ∀ part : List LabeledPoint,
      vsub (update_param ⟨lr, false, 0, 0⟩ g part init n) init =
        smulVec ((part.length : ℚ) / (n : ℚ)) (vsub (cvAfter lr g part init) init) := by
    intro part
    rw [update_param_no_reg_eq]
    apply vsub_vadd_cancel
    rw [length_smulVec, length_vsub, length_cvAfter]
    simp
  simp only [hstep]

lemma train_test_go_spec (u : Params → Params) (e : Params → ℚ) (p0 : Params) :
    ∀ (fuel round : ℕ) (past : ℚ),
      (round ≠ 0 → past = errAt u e p0 (round - 1)) →
      (train_test_go u e fuel round past (u^[round] p0)).1
          = u^[(train_test_go u e fuel round past (u^[round] p0)).2] p0 ∧
      round ≤ (train_test_go u e fuel round past (u^[round] p0)).2 ∧
      (train_test_go u e fuel round past (u^[round] p0)).2 ≤ round + fuel ∧
      ((train_test_go u e fuel round past (u^[round] p0)).2 < round + fuel ↔
        ∃ r, round ≤ r ∧ r + 1 < round + fuel ∧ stopAt u e p0 r) := by
  intro fuel
  induction fuel with
  | zero =>
    intro round past hpast
    have h2 : (train_test_go u e 0 round past (u^[round] p0)).2 = round := rfl
    refine ⟨rfl, le_of_eq h2.symm, by omega, ?_⟩
    rw [h2]
    constructor
    · intro h; omega
    · rintro ⟨r, hr1, hr2, _⟩; omega
  | succ fuel ih =>
    intro round past hpast
    have hiter : u (u^[round] p0) = u^[round + 1] p0 :=
      (Function.iterate_succ_apply' u round p0).symm
    have hcur : e (u^[round + 1] p0) = errAt u e p0 round := rfl
    simp only [train_test_go]
    rw [hiter]
    have hstop : (e (u^[round + 1] p0) = 0 ∨
        (round ≠ 0 ∧ e (u^[round + 1] p0) > past)) ↔ stopAt u e p0 round := by
      rw [hcur]
      unfold stopAt
      rcases Nat.eq_zero_or_pos round with h0 | h0
      · subst h0; simp
      · have hr : round ≠ 0 := by omega
        rw [hpast hr]
    by_cases hC : e (u^[round + 1] p0) = 0 ∨ (round ≠ 0 ∧ e (u^[round + 1] p0) > past)
    · rw [if_pos hC]
      have hs : stopAt u e p0 round := hstop.mp hC
      refine ⟨rfl, by omega, by omega, ?_⟩
      constructor
      · intro h
        exact ⟨round, le_refl _, by omega, hs⟩
      · rintro ⟨r, hr1, hr2, _⟩
        omega
    · rw [if_neg hC]
      have hns : ¬ stopAt u e p0 round := fun hs => hC (hstop.mpr hs)
      have hpast1 : round + 1 ≠ 0 → e (u^[round + 1] p0) = errAt u e p0 (round + 1 - 1) := by
        intro _
        rw [Nat.add_sub_cancel]
        exact hcur
      obtain ⟨ih1, ih2, ih3, ih4⟩ := ih (round + 1) (e (u^[round + 1] p0)) hpast1
      refine ⟨ih1, by omega, by omega, ?_⟩
      rw [show round + (fuel + 1) = round + 1 + fuel by omega, ih4]
      constructor
      · rintro ⟨r, hr1, hr2, hr3⟩
        exact ⟨r, by omega, hr2, hr3⟩
      · rintro ⟨r, hr1, hr2, hr3⟩
        rcases Nat.eq_or_lt_of_le hr1 with heq | hlt
        · exact absurd (heq ▸ hr3) hns
        · exact ⟨r, hlt, hr2, hr3⟩

lemma set_append_len (v : List ℚ) (a b : ℚ) (t : List ℚ) :
    (v ++ a :: t).set v.length b = v ++ b :: t := by
  induction v with
  | nil => rfl
  | cons hd tl ih => simp [List.set, ih]

lemma resizeVec_succ (v : List ℚ) : resizeVec v (v.length + 1) = v ++ [0] := by
  unfold resizeVec
  rw [Nat.add_sub_cancel_left]
  have hlen : (v ++ [(0 : ℚ)]).length = v.length + 1 := by simp
  rw [show List.replicate 1 (0 : ℚ) = [0] from rfl, ← hlen, List.take_length]

lemma feaval_dot (pl : Params) :
    ∀ (x : List ℚ) (k : ℕ) (a : ℚ),
      (enumFeaval k x).foldl (fun acc fv => acc + pl.getD fv.1 0 * fv.2) a =
        a + (List.zipWith (· * ·) (pl.drop k) x).sum
  | [], k, a => by simp [enumFeaval]
  | v :: rest, k, a => by
    simp only [enumFeaval, List.foldl_cons]
    rw [feaval_dot pl rest (k + 1) (a + pl.getD k 0 * v)]
    rcases hd : pl.drop k with _ | ⟨p, tl⟩
    · have hk : pl.length ≤ k := by
        by_contra hlt
        have := List.length_drop k pl
        rw [hd] at this
        simp at this
        omega
      have h1 : pl.getD k 0 = 0 := by
        rw [List.getD_eq_getElem?_getD, List.getElem?_eq_none hk]
        rfl
      have h2 : pl.drop (k + 1) = [] := by
        apply List.drop_eq_nil_of_le
        omega
      rw [h1, h2]
      simp
    · have h1 : pl.getD k 0 = p := by
        have hk : (pl.drop k)[0]? = pl[k]? := by
          simp [List.getElem?_drop]
        rw [hd] at hk
        simp at hk
        rw [List.getD_eq_getElem?_getD, ← hk]
        rfl
      have h2 : pl.drop (k + 1) = tl := by
        rw [← List.tail_drop, hd]
        rfl
      rw [h1, h2]
      simp only [List.zipWith_cons_cons, List.sum_cons]
      ring

lemma foldl_add_eq_sum {α : Type} (g : α → ℚ) :
    ∀ (l : List α) (a : ℚ),
      l.foldl (fun acc x => acc + g x) a = a + (l.map g).sum
  | [], a => by simp
  | x :: rest, a => by
    simp only [List.foldl_cons, List.map_cons, List.sum_cons]
    rw [foldl_add_eq_sum g rest (a + g x)]
    ring

lemma foldl_error_absorb {α : Type} (F : Except String ℚ → α → Except String ℚ)
    (e : String) (hF : ∀ x, F (.error e) x = .error e) :
    ∀ l : List α, l.foldl F (.error e) = .error e
  | [] => rfl
  | x :: rest => by
    rw [List.foldl_cons, hF x]
    exact foldl_error_absorb F e hF rest

lemma foldl_bind_ok {α : Type} (g : α → ℚ) :
    ∀ (l : List α) (a : ℚ),
      l.foldl (fun acc x => acc.bind fun b => Except.ok (b + g x))
          (Except.ok (ε := String) a) =
        .ok (l.foldl (fun b x => b + g x) a)
  | [], _ => rfl
  | x :: rest, a => foldl_bind_ok g rest (a + g x)

/-! ### Claim theorems -/

/-- C8: selecting L1 regularization (`set_regularization` with norm `1`) and
running a round leaves the parameter store exactly as a round with no
regularization at all would: the `case 1` of the `switch` in
`SGD::update_param` is an empty `TODO` branch, so the L1 decay is silently
skipped — the round neither fails nor performs any L1 decay, for every
input. -/
theorem l1_regularization_silent_noop (lr lambda_ : ℚ) (g : GradFunc)
    (data : List LabeledPoint) (pl : Params) (n : ℕ) :
    update_param ⟨lr, true, 1, lambda_⟩ g data pl n =
      update_param ⟨lr, false, 0, 0⟩ g data pl n := by
  simp [update_param, regularize]

/-- C10: the gradients computed during a round of `SGD::update_param` with L2
regularization enabled are exactly the gradients of the same round with
regularization disabled — the local copy `current_vec` is taken from the
shared store before `l2_regularize` decays it, so no gradient of the round
ever observes the decay; the decayed store only seeds the shared-store
component of the fold. -/
theorem snapshot_taken_before_l2_decay (lr lambda_ : ℚ) (g : GradFunc)
    (data : List LabeledPoint) (pl : Params) (n : ℕ) :
    (update_param_trace ⟨lr, true, 2, lambda_⟩ g data pl n).2 =
        (update_param_trace ⟨lr, false, 0, 0⟩ g data pl n).2 ∧
    (update_param_trace ⟨lr, true, 2, lambda_⟩ g data pl n).1 =
        update_param ⟨lr, true, 2, lambda_⟩ g data pl n ∧
    update_param ⟨lr, true, 2, lambda_⟩ g data pl n =
      (data.foldl (exampleStep lr ((data.length : ℚ) / (n : ℚ)) g)
        (pl, l2_regularize lr lambda_ pl)).2 := by
  refine ⟨?_, update_param_trace_fst _ _ _ _ _, ?_⟩
  · rw [update_param_trace_snd, update_param_trace_snd]
  · simp [update_param, regularize]

/-- C1 counterexample: with the SVM gradient, two copies of the example
`(x = [1], y = 1)`, the zero snapshot `[0, 0]` and learning rate `1`, the
gradient actually evaluated for the second example during the round
(`Vector(0)`, the margin having reached `2` on the updated working copy)
differs from the gradient of that example against the round-start snapshot
(`[1, 1]`): within a round, an example's gradient does depend on the updates
of earlier examples. -/
theorem second_example_gradient_not_against_snapshot :
    (update_param_trace ⟨1, false, 0, 0⟩ svm_gradient_func_
        [⟨[1], 1⟩, ⟨[1], 1⟩] [0, 0] 2).2.getD 1 [] ≠
      svm_gradient_func_ ⟨[1], 1⟩ [0, 0] := by
  have h1 : (update_param_trace ⟨1, false, 0, 0⟩ svm_gradient_func_
      [⟨[1], 1⟩, ⟨[1], 1⟩] [0, 0] 2).2.getD 1 [] = [] := by
    norm_num [update_param_trace, regularize, gradStep, svm_gradient_func_,
      dot_with_intcpt, resizeVec, vupdate, enumFeaval, List.set, List.getD,
      cons_getElem_one, cons_getElem_two]
  have h2 : svm_gradient_func_ ⟨[1], 1⟩ [0, 0] = [1, 1] := by
    norm_num [svm_gradient_func_, dot_with_intcpt, resizeVec, List.set]
  rw [h1, h2]
  simp

/-- C1 amended: during a round of `SGD::update_param`, the gradient of the
`j`-th local example is evaluated against the per-worker working copy
obtained from the round-start snapshot of the shared store by applying the
full (unscaled) learning-rate steps of the `j` earlier examples of the same
round — not against the unchanged snapshot; the working copy never observes
the round's regularization decay of the shared store, and no cross-round
staleness arises because the chain starts at the round-start store. -/
theorem gradient_evaluated_against_evolving_local_copy
    (cfg : SGDConfig) (g : GradFunc) (data : List LabeledPoint)
    (pl : Params) (n j : ℕ) (hj : j < data.length) :
    (update_param_trace cfg g data pl n).2.getD j [] =
      g (data.getD j ⟨[], 0⟩) (cvAfter cfg.learning_rate_ g (data.take j) pl) := by
  rw [update_param_trace_snd]
  exact roundGradients_getD cfg.learning_rate_ g data pl j hj

/-- Witness for C1 amended, at the counterexample's input and `j = 1`. -/
theorem gradient_evaluated_against_evolving_local_copy_witness :
    (update_param_trace ⟨1, false, 0, 0⟩ svm_gradient_func_
        [⟨[1], 1⟩, ⟨[1], 1⟩] [0, 0] 2).2.getD 1 [] =
      svm_gradient_func_ (([⟨[1], 1⟩, ⟨[1], 1⟩] : List LabeledPoint).getD 1 ⟨[], 0⟩)
        (cvAfter 1 svm_gradient_func_ (([⟨[1], 1⟩, ⟨[1], 1⟩] :
          List LabeledPoint).take 1) [0, 0]) :=
  gradient_evaluated_against_evolving_local_copy ⟨1, false, 0, 0⟩
    svm_gradient_func_ [⟨[1], 1⟩, ⟨[1], 1⟩] [0, 0] 2 1 (by norm_num)

/-- C2 counterexample: with the SVM gradient, the two-example dataset
`[(x = [1], y = -1), (x = [1], y = -1)]`, snapshot `[0, 0]` and learning rate
`1/4`, one round run by two workers (one example each) yields `[-1/4, -1/4]`
while the same round run by a single worker over all the data yields
`[-1/2, -1/2]`: the data-parallel round does not equal the sequential
round. -/
theorem split_round_differs_from_sequential_round :
    multi_worker_round (1/4) svm_gradient_func_
        [[⟨[1], -1⟩], [⟨[1], -1⟩]] [0, 0] 2 ≠
      update_param ⟨1/4, false, 0, 0⟩ svm_gradient_func_
        [⟨[1], -1⟩, ⟨[1], -1⟩] [0, 0] 2 := by
  have h1 : multi_worker_round (1/4) svm_gradient_func_
      [[⟨[1], -1⟩], [⟨[1], -1⟩]] [0, 0] 2 = [-1/4, -1/4] := by
    norm_num [multi_worker_round, update_param, regularize, gradStep,
      exampleStep, svm_gradient_func_, dot_with_intcpt, resizeVec, vupdate,
      vadd, vsub, enumFeaval, List.set, List.getD, cons_getElem_one,
      cons_getElem_two]
  have h2 : update_param ⟨1/4, false, 0, 0⟩ svm_gradient_func_
      [⟨[1], -1⟩, ⟨[1], -1⟩] [0, 0] 2 = [-1/2, -1/2] := by
    norm_num [update_param, regularize, gradStep, exampleStep,
      svm_gradient_func_, dot_with_intcpt, resizeVec, vupdate, enumFeaval,
      List.set, List.getD, cons_getElem_one, cons_getElem_two]
  rw [h1, h2]
  norm_num

/-- C2 amended: one synchronous round run by `k` workers equals the
round-start snapshot plus, for each worker, `localSampleCount /
globalSampleCount` times the parameter change a solo sequential pass over
that worker's partition (at the full learning rate, starting from the
snapshot) would produce; a single worker processing all the data
(`localSampleCount = globalSampleCount`) produces exactly that sequential
pass.  The `k`-worker result is therefore the partition-weighted average of
per-partition sequential steps, not the `k = 1` result. -/
theorem data_parallel_round_is_weighted_combination (lr : ℚ) (g : GradFunc)
    (parts : List (List LabeledPoint)) (init : Params) (n : ℕ)
    (data : List LabeledPoint) :
    multi_worker_round lr g parts init n =
      parts.foldl
        (fun acc part =>
          vadd acc (smulVec ((part.length : ℚ) / (n : ℚ))
            (vsub (cvAfter lr g part init) init)))
        init ∧
    update_param ⟨lr, false, 0, 0⟩ g data init data.length =
      cvAfter lr g data init :=
  ⟨multi_worker_round_eq lr g parts init n, update_param_single lr g data init⟩

/-- C3: `Regression::train_test` applies strictly fewer than `iters` update
rounds exactly when some round `r` with `r + 1 < iters` observes a held-out
average error of exactly zero, or (for a round after round `0`) a held-out
error strictly above the previous round's; the final parameters are the
result of exactly the counted number of updates; and on the held-out error
sequence `[0.5, 0.3, 0.4]` the loop halts after exactly `3` applied update
rounds (not `2`), the rise from `0.3` to `0.4` being observed only after the
third update has been applied. -/
theorem train_test_early_stopping (iters : ℕ) (u : Params → Params)
    (e : Params → ℚ) (p : Params) :
    (((train_test iters u e p).2 < iters ↔
        ∃ r, r + 1 < iters ∧ stopAt u e p r) ∧
      (train_test iters u e p).1 = u^[(train_test iters u e p).2] p ∧
      (train_test iters u e p).2 ≤ iters) ∧
    (train_test 10 (fun q => 0 :: q)
      (fun q => ([1/2, 3/10, 2/5] : List ℚ).getD (q.length - 1) 1) []).2 = 3 := by
  constructor
  · have h := train_test_go_spec u e p iters 0 0 (by intro hc; exact absurd rfl hc)
    rw [Function.iterate_zero_apply] at h
    obtain ⟨h1, _, h3, h4⟩ := h
    refine ⟨?_, h1, by simpa using h3⟩
    rw [show (train_test iters u e p).2 = (train_test_go u e iters 0 0 p).2 from rfl]
    rw [show (0 : ℕ) + iters = iters from by omega] at h4
    rw [h4]
    constructor
    · rintro ⟨r, _, hr2, hr3⟩; exact ⟨r, hr2, hr3⟩
    · rintro ⟨r, hr2, hr3⟩; exact ⟨r, by omega, hr2, hr3⟩
  · norm_num [train_test, train_test_go]

/-- C4: for an example whose feature count matches the parameter count minus
one (as the `SVM` constructor arranges, the bias living at the last index),
the SVM gradient closure returns the no-update vector `Vector(0)` whenever
the margin `y·(w·x+b)` is at least `1` — in particular exactly at the
boundary `margin = 1` — and for `margin < 1` returns the vector whose weight
block is `y·x` and whose bias component is `y`. -/
theorem svm_gradient_hinge_margin (this_obj : LabeledPoint) (param : Params)
    (hx : this_obj.x.length + 1 = param.length) :
    (1 ≤ this_obj.y * dot_with_intcpt param this_obj.x →
      svm_gradient_func_ this_obj param = [] ∧
      ∀ i, (svm_gradient_func_ this_obj param).getD i 0 = 0) ∧
    (this_obj.y * dot_with_intcpt param this_obj.x = 1 →
      svm_gradient_func_ this_obj param = []) ∧
    (this_obj.y * dot_with_intcpt param this_obj.x < 1 →
      svm_gradient_func_ this_obj param =
        this_obj.x.map (· * this_obj.y) ++ [this_obj.y]) := by
  have hcomm : dot_with_intcpt param this_obj.x * this_obj.y =
      this_obj.y * dot_with_intcpt param this_obj.x := mul_comm _ _
  refine ⟨?_, ?_, ?_⟩
  · intro hm
    have hcond : ¬ dot_with_intcpt param this_obj.x * this_obj.y < 1 := by
      rw [hcomm]; exact not_lt.mpr hm
    constructor
    · simp only [svm_gradient_func_, if_neg hcond]
    · intro i
      simp only [svm_gradient_func_, if_neg hcond]
      cases i <;> rfl
  · intro hm
    have hcond : ¬ dot_with_intcpt param this_obj.x * this_obj.y < 1 := by
      rw [hcomm, hm]; exact lt_irrefl 1
    simp only [svm_gradient_func_, if_neg hcond]
  · intro hm
    have hcond : dot_with_intcpt param this_obj.x * this_obj.y < 1 := by
      rw [hcomm]; exact hm
    simp only [svm_gradient_func_, if_pos hcond]
    have hlen : (this_obj.x.map (· * this_obj.y)).length + 1 = param.length := by
      rw [List.length_map]; exact hx
    rw [← hlen, resizeVec_succ, Nat.add_sub_cancel,
      show ((0 : ℚ) :: [] : List ℚ) = [(0 : ℚ)] from rfl]
    rw [show ([(0 : ℚ)] : List ℚ) = (0 : ℚ) :: [] from rfl, set_append_len]

/-- Witness for C4: at parameters `[0, 1]` the example `(x = [1], y = 1)`
sits exactly on the margin boundary (`margin = 1`) and gets the no-update
vector; at parameters `[0, 0]` its margin is `0 < 1` and the gradient is
`(y·x, y) = [1, 1]`. -/
theorem svm_gradient_hinge_margin_witness :
    svm_gradient_func_ ⟨[1], 1⟩ [0, 1] = [] ∧
    svm_gradient_func_ ⟨[1], 1⟩ [0, 0] = [1, 1] := by
  constructor
  · exact (svm_gradient_hinge_margin ⟨[1], 1⟩ [0, 1] (by norm_num)).2.1
      (by norm_num [dot_with_intcpt])
  · have h := (svm_gradient_hinge_margin ⟨[1], 1⟩ [0, 0] (by norm_num)).2.2
      (by norm_num [dot_with_intcpt])
    rw [h]
    norm_num

/-- C5 counterexample: the example `(x = [1], y = 1)` against parameters
`[0, 0]` has `y·(w·x+b) = 0`; the `SVM` model's error closure counts it as an
error (`1`, the `≤ 0` convention), but the test loop of the `svm_fgd`
example counts it as correct (`0`, a strict `< 0` test) — the boundary
convention does not hold everywhere the misclassification error is
computed. -/
theorem boundary_example_counted_differently :
    (1 : ℚ) * dot_with_intcpt [0, 0] [1] = 0 ∧
    svm_error_func_ ⟨[1], 1⟩ [0, 0] = 1 ∧
    svm_fgd_test_error ⟨[1], 1⟩ [0, 0] 1 = 0 := by
  refine ⟨by norm_num [dot_with_intcpt], ?_, ?_⟩
  · norm_num [svm_error_func_, enumFeaval]
  · norm_num [svm_fgd_test_error, enumFeaval]

/-- C5 amended: the `SVM` error closure returns `1` exactly when
`y·(w·x+b) ≤ 0` (so the boundary `= 0` counts as an error there), while the
test loop of the `svm_fgd` example returns `1` exactly when `y·(w·x+b) < 0`
(the boundary counts as correct there): the two places that compute the
misclassification error disagree at the boundary. -/
theorem svm_error_boundary_conventions (this_obj : LabeledPoint)
    (param_list bweight : Params) (num_features : ℕ)
    (hb : num_features + 1 = bweight.length) :
    svm_error_func_ this_obj param_list =
      (if this_obj.y * dot_with_intcpt param_list this_obj.x ≤ 0 then 1 else 0) ∧
    svm_fgd_test_error this_obj bweight num_features =
      (if this_obj.y * dot_with_intcpt bweight this_obj.x < 0 then 1 else 0) := by
  constructor
  · have hdot : (enumFeaval 0 this_obj.x).foldl
        (fun acc fv => acc + param_list.getD fv.1 0 * fv.2) 0 =
          (List.zipWith (· * ·) param_list this_obj.x).sum := by
      rw [feaval_dot param_list this_obj.x 0 0]
      simp
    simp only [svm_error_func_, hdot, dot_with_intcpt]
    rw [show ((List.zipWith (· * ·) param_list this_obj.x).sum +
        param_list.getD (param_list.length - 1) 0) * this_obj.y =
      this_obj.y * ((List.zipWith (· * ·) param_list this_obj.x).sum +
        param_list.getD (param_list.length - 1) 0) from mul_comm _ _]
  · have hdot : (enumFeaval 0 this_obj.x).foldl
        (fun acc fv => acc + bweight.getD fv.1 0 * fv.2) 0 =
          (List.zipWith (· * ·) bweight this_obj.x).sum := by
      rw [feaval_dot bweight this_obj.x 0 0]
      simp
    have hnf : num_features = bweight.length - 1 := by omega
    simp only [svm_fgd_test_error, hdot, dot_with_intcpt, hnf]
    rw [show ((List.zipWith (· * ·) bweight this_obj.x).sum +
        bweight.getD (bweight.length - 1) 0) * this_obj.y =
      this_obj.y * ((List.zipWith (· * ·) bweight this_obj.x).sum +
        bweight.getD (bweight.length - 1) 0) from mul_comm _ _]

/-- Witness for C5 amended, at the boundary input of the counterexample. -/
theorem svm_error_boundary_conventions_witness :
    svm_error_func_ ⟨[1], -1⟩ [1, 0] = 1 ∧
    svm_fgd_test_error ⟨[1], -1⟩ [1, 0] 1 = 1 := by
  have h := svm_error_boundary_conventions ⟨[1], -1⟩ [1, 0] [1, 0] 1 (by norm_num)
  rw [h.1, h.2]
  norm_num [dot_with_intcpt]

/-- C6 counterexample: calling `avg_error` on a model whose error closure was
never set does not produce the "function not specified" configuration error —
there is no such assertion in `Model::avg_error`.  With a local example
present, the loop's first invocation of the empty `std::function` dies with
`std::bad_function_call`; with no local example the closure is never invoked
and the call does not fail at all, returning the unguarded division of `0` by
the zero sample count. -/
theorem avg_error_lacks_not_specified_guard :
    avg_error ⟨none, none, none, [], false⟩ [⟨[], 1⟩] =
      .error "bad_function_call" ∧
    (Except.error "bad_function_call" : Except String ℚ) ≠
      .error "Error function is not specified." ∧
    avg_error ⟨none, none, none, [], false⟩ [] =
      .ok ((0 : ℚ) / ((0 : ℕ) : ℚ)) := by
  refine ⟨rfl, ?_, rfl⟩
  simp

/-- C6 amended: prediction checks the predict closure
(`"Predict function is not specified."`), and `Regression::train` checks the
gradient and error closures before running, but `Model::avg_error` performs
no such check: with the error closure unset and at least one local example it
invokes the empty `std::function` and fails with `std::bad_function_call`
rather than a "function not specified" configuration error, and with no local
example it never invokes the closure and does not fail at all — it divides
`0` by the zero sample count. -/
theorem pluggable_function_guards (m : ModelS) (data : List LabeledPoint)
    (iters : ℕ) (lr : ℚ) :
    (m.predict_func_ = none →
      predict m data = .error "Predict function is not specified.") ∧
    (0 < m.param_list_.length → m.gradient_func_ = none →
      Regression.train m data iters lr =
        .error "Gradient function is not specified.") ∧
    (0 < m.param_list_.length → (∃ gf, m.gradient_func_ = some gf) →
      m.error_func_ = none →
      Regression.train m data iters lr =
        .error "Error function is not specified.") ∧
    (m.error_func_ = none → data ≠ [] →
      avg_error m data = .error "bad_function_call") ∧
    (m.error_func_ = none →
      avg_error m [] = .ok ((0 : ℚ) / ((0 : ℕ) : ℚ))) := by
  refine ⟨?_, ?_, ?_, ?_, ?_⟩
  · intro h
    simp [predict, h]
  · intro hp hg
    simp [Regression.train, hp, hg]
  · rintro hp ⟨gf, hg⟩ he
    simp [Regression.train, hp, hg, he]
  · intro h hdata
    rcases data with _ | ⟨this_obj, rest⟩
    · exact absurd rfl hdata
    · simp only [avg_error, h, List.foldl_cons, Except.bind]
      rw [foldl_error_absorb _ "bad_function_call" (fun x => rfl) rest]
      rfl
  · intro _
    rfl

/-- Witness for C6 amended, on concrete unset-closure models, with a
one-example dataset for the `bad_function_call` failure and the empty dataset
for the no-failure path. -/
theorem pluggable_function_guards_witness :
    predict ⟨none, none, none, [0], false⟩ [] =
      .error "Predict function is not specified." ∧
    Regression.train ⟨none, none, none, [0], false⟩ [] 1 1 =
      .error "Gradient function is not specified." ∧
    Regression.train ⟨some (fun _ q => q), none, none, [0], false⟩ [] 1 1 =
      .error "Error function is not specified." ∧
    avg_error ⟨none, none, none, [0], false⟩ [⟨[], 1⟩] =
      .error "bad_function_call" ∧
    avg_error ⟨none, none, none, [0], false⟩ [] =
      .ok ((0 : ℚ) / ((0 : ℕ) : ℚ)) := by
  refine ⟨?_, ?_, ?_, ?_, ?_⟩
  · exact (pluggable_function_guards ⟨none, none, none, [0], false⟩ [] 1 1).1 rfl
  · exact (pluggable_function_guards ⟨none, none, none, [0], false⟩ [] 1 1).2.1
      (by norm_num) rfl
  · exact (pluggable_function_guards ⟨some (fun _ q => q), none, none, [0], false⟩
      [] 1 1).2.2.1 (by norm_num) ⟨_, rfl⟩ rfl
  · exact (pluggable_function_guards ⟨none, none, none, [0], false⟩ [⟨[], 1⟩] 1
      1).2.2.2.1 rfl (by simp)
  · exact (pluggable_function_guards ⟨none, none, none, [0], false⟩ [] 1
      1).2.2.2.2 rfl

/-- C7 counterexample: `set_num_param` with the non-positive count `-1`
returns with the model unchanged — its `if (_num_param > 0)` has no `else`
branch, so no configuration error is raised at call time and the parameter
store stays unallocated. -/
theorem set_num_param_nonpositive_no_error :
    set_num_param ⟨none, none, none, [], false⟩ (-1) =
      ⟨none, none, none, [], false⟩ := by
  simp [set_num_param]

/-- C7 amended: `set_num_param(n)` allocates an `n`-entry zero store when
`n > 0` and silently does nothing when `n ≤ 0`; the "number of parameters is
0" configuration error is raised only later, at training time, by the
assertion at the head of `Regression::train`. -/
theorem set_num_param_allocation (m : ModelS) (n : ℤ)
    (data : List LabeledPoint) (iters : ℕ) (lr : ℚ) :
    (0 < n → (set_num_param m n).param_list_ = List.replicate n.toNat 0) ∧
    (n ≤ 0 → set_num_param m n = m) ∧
    (m.param_list_ = [] →
      Regression.train m data iters lr =
        .error "The number of parameters is 0.") := by
  refine ⟨?_, ?_, ?_⟩
  · intro h
    simp [set_num_param, h]
  · intro h
    rw [set_num_param, if_neg (by omega)]
  · intro h
    simp [Regression.train, h]

/-- Witness for C7 amended: allocation at `3`, silent return at `-2`, and the
train-time failure on an unallocated store. -/
theorem set_num_param_allocation_witness :
    (set_num_param ⟨none, none, none, [], false⟩ 3).param_list_ = [0, 0, 0] ∧
    set_num_param ⟨none, none, none, [], false⟩ (-2) =
      ⟨none, none, none, [], false⟩ ∧
    Regression.train ⟨none, none, none, [], false⟩ [] 2 1 =
      .error "The number of parameters is 0." := by
  refine ⟨?_, ?_, ?_⟩
  · have h := (set_num_param_allocation ⟨none, none, none, [], false⟩ 3 [] 2 1).1
      (by norm_num)
    rw [h]
    rfl
  · exact (set_num_param_allocation ⟨none, none, none, [], false⟩ (-2) [] 2 1).2.1
      (by norm_num)
  · exact (set_num_param_allocation ⟨none, none, none, [], false⟩ 0 [] 2 1).2.2 rfl

/-- C9: with the error closure set, `Model::avg_error` returns exactly the
sum of the per-example errors divided by the example count, for every
dataset — the division is applied unconditionally, with no guard on the
count (a zero count reaches the division); being a pure function of the
parameter snapshot and the dataset, the result is deterministic. -/
theorem avg_error_mean_formula (m : ModelS) (f : LabeledPoint → Params → ℚ)
    (data : List LabeledPoint) (hf : m.error_func_ = some f) :
    avg_error m data =
      .ok ((data.map (fun this_obj => f this_obj m.param_list_)).sum /
        (data.length : ℚ)) := by
  simp only [avg_error, hf]
  rw [foldl_bind_ok (fun this_obj => f this_obj m.param_list_) data 0]
  simp [foldl_add_eq_sum (fun this_obj => f this_obj m.param_list_) data 0,
    Except.map]

/-- Witness for C9: a two-example dataset with constant error `1` has average
error `1`. -/
theorem avg_error_mean_formula_witness :
    avg_error ⟨none, some (fun _ _ => 1), none, [], false⟩
      [⟨[], 1⟩, ⟨[], -1⟩] = .ok 1 := by
  have h := avg_error_mean_formula ⟨none, some (fun _ _ => (1 : ℚ)), none, [], false⟩
    (fun _ _ => 1) [⟨[], 1⟩, ⟨[], -1⟩] rfl
  rw [h]
  norm_num

end Husky
